import Mathlib

/-!
Verification of the AgentResource resource-query system.

This file shallowly embeds the query-translation, rank-hierarchy,
availability-matching and report-building logic of the repository:

* `Base`    — `src/src/query_tools/base.py` (`BaseResourceQueryTools`)
* `SrcAgent`— `src/src/agent_tools.py` (`ResourceQueryTools`, the subclass
              of `BaseResourceQueryTools`)
* `Legacy`  — `src/agent_tools.py` (the earlier snapshot of
              `ResourceQueryTools`)
* `Fb`      — `src/firebase_utils.py`

Python strings are modelled as Lean `String`s and the Python string
primitives the code relies on (`lower`, `strip`, `split`, `in`, `find`,
`rfind`, slicing, `isdigit`, `int`) are defined below on the underlying
character lists so that everything evaluates by `rfl`/`decide`.
Python dicts are modelled as association lists in insertion order, with
`dictInsert` reproducing the update-in-place/append-at-end semantics of
`d[k] = v`, and `List.lookup` reproducing `d.get(k)`.
-/

/-- Python's notion of whitespace for `str.strip()` (ASCII part; the
inputs in this development are ASCII). -/
def pyIsSpace (c : Char) : Bool :=
  c = ' ' || c = '\t' || c = '\n' || c = '\r' || c = '\x0b' || c = '\x0c'

/-- Python `str.strip()` on the character list: drop leading and trailing
whitespace. -/
def pyStripList (l : List Char) : List Char :=
  ((l.dropWhile pyIsSpace).reverse.dropWhile pyIsSpace).reverse

/-- Python `s.strip()`. -/
def pyStrip (s : String) : String :=
  ⟨pyStripList s.data⟩

/-- Python `s.lower()` (ASCII). -/
def pyLower (s : String) : String :=
  ⟨s.data.map Char.toLower⟩

/-- Is `pat` a prefix of `l`? (helper for substring containment). -/
def listStartsWith : List Char → List Char → Bool
  | [], _ => true
  | _ :: _, [] => false
  | a :: as, b :: bs => a == b && listStartsWith as bs

/-- Does `pat` occur inside `l`? (helper for Python's `pat in s`). -/
def listContainsSub (pat : List Char) : List Char → Bool
  | [] => listStartsWith pat []
  | c :: rest => listStartsWith pat (c :: rest) || listContainsSub pat rest

/-- Python `pat in s` (substring containment). -/
def strContains (s pat : String) : Bool :=
  listContainsSub pat.data s.data

/-- Python `s.startswith(pat)`. -/
def strStartsWith (s pat : String) : Bool :=
  listStartsWith pat.data s.data

/-- Python `s.split(c)` on character lists: split at every occurrence of `c`,
keeping empty pieces (Python semantics for a one-character separator). -/
def splitCharAux (c : Char) : List Char → List Char → List (List Char)
  | [], acc => [acc.reverse]
  | x :: xs, acc =>
      if x == c then acc.reverse :: splitCharAux c xs []
      else splitCharAux c xs (x :: acc)

/-- Python `s.split(c)` for a single-character separator. -/
def pySplitChar (s : String) (c : Char) : List String :=
  (splitCharAux c s.data []).map (fun l => ⟨l⟩)

/-- Fuel-driven worker for splitting on a multi-character separator
(the fuel is an upper bound on the number of characters consumed, so the
definition is structurally recursive and kernel-evaluable). -/
def splitStrFuel (sep : List Char) : Nat → List Char → List Char → List (List Char)
  | 0, rest, acc => [acc.reverse ++ rest]
  | _ + 1, [], acc => [acc.reverse]
  | fuel + 1, x :: xs, acc =>
      if listStartsWith sep (x :: xs) then
        acc.reverse :: splitStrFuel sep fuel (List.drop sep.length (x :: xs)) []
      else splitStrFuel sep fuel xs (x :: acc)

/-- Python `s.split(sep)` for a non-empty separator string. -/
def pySplitStr (s sep : String) : List String :=
  if sep.data.isEmpty then [s]
  else (splitStrFuel sep.data (s.data.length + 1) s.data []).map (fun l => ⟨l⟩)

/-- Worker for Python's no-argument `s.split()`: split on whitespace
runs, dropping empty pieces. -/
def whiteSplitAux : List Char → List Char → List (List Char)
  | [], acc => if acc.isEmpty then [] else [acc.reverse]
  | x :: xs, acc =>
      if pyIsSpace x then
        if acc.isEmpty then whiteSplitAux xs []
        else acc.reverse :: whiteSplitAux xs []
      else whiteSplitAux xs (x :: acc)

/-- Python `s.split()` (no argument). -/
def pyWhiteSplit (s : String) : List String :=
  (whiteSplitAux s.data []).map (fun l => ⟨l⟩)

/-- Python `c.isdigit()` for ASCII. -/
def pyIsDigit (c : Char) : Bool :=
  '0' ≤ c && c ≤ '9'

/-- Python `s.isdigit()`: non-empty and all digits. -/
def pyIsDigitStr (s : String) : Bool :=
  !s.data.isEmpty && s.data.all pyIsDigit

/-- Python `int(s)` for a string of digits. -/
def pyParseNat (s : String) : Nat :=
  s.data.foldl (fun n c => n * 10 + (c.toNat - '0'.toNat)) 0

/-- Position of the first occurrence of `c` (Python `s.find(c)`, with
`none` standing for `-1`). -/
def findCharAux (c : Char) : List Char → Nat → Option Nat
  | [], _ => none
  | x :: xs, i => if x == c then some i else findCharAux c xs (i + 1)

/-- Python `s.find(c)` (`none` = not found = Python `-1`). -/
def pyFindChar (s : String) (c : Char) : Option Nat :=
  findCharAux c s.data 0

/-- Python `s.rfind(c)` (`none` = not found = Python `-1`). -/
def pyRFindChar (s : String) (c : Char) : Option Nat :=
  match findCharAux c s.data.reverse 0 with
  | none => none
  | some j => some (s.data.length - 1 - j)

/-- Python `s[a:b]` for `0 ≤ a ≤ b` (indices clamped to the length). -/
def pySlice (s : String) (a b : Nat) : String :=
  ⟨(s.data.take b).drop a⟩

/-- Python `sep.join(l)`. -/
def pyJoin (sep : String) : List String → String
  | [] => ""
  | [x] => x
  | x :: y :: xs => x ++ sep ++ pyJoin sep (y :: xs)

/-- Python string truthiness: non-empty. -/
def truthyS (s : String) : Bool :=
  !s.data.isEmpty

/-- Truthiness of an optional string argument (`None` and `""` are
falsy). -/
def truthyOS (o : Option String) : Bool :=
  match o with
  | none => false
  | some s => truthyS s

/-- Truthiness of an optional list argument (`None` and `[]` are
falsy). -/
def truthyOL {α : Type} (o : Option (List α)) : Bool :=
  match o with
  | none => false
  | some l => !l.isEmpty

/-- Python `d[k] = v` on an insertion-ordered association list: update
in place if the key exists, append otherwise. -/
def dictInsert {α : Type} (k : String) (v : α) : List (String × α) → List (String × α)
  | [] => [(k, v)]
  | (k', v') :: rest =>
      if k = k' then (k, v) :: rest else (k', v') :: dictInsert k v rest

/-- Python `<` on strings restricted to the character lists, i.e.
lexicographic comparison by code point; `charListLe a b` is `a ≤ b`. -/
def charListLe : List Char → List Char → Bool
  | [], _ => true
  | _ :: _, [] => false
  | a :: as, b :: bs =>
      if a < b then true else if b < a then false else charListLe as bs

/-- Python `a <= b` on strings. -/
def pyStrLe (a b : String) : Bool :=
  charListLe a.data b.data

/-- Python `sorted` on strings (ascending, stable): insertion sort by
`pyStrLe`, which is extensionally Python's Timsort on a list of
distinct-or-equal strings. -/
def pySortedStr (l : List String) : List String :=
  List.insertionSort (fun a b => pyStrLe a b = true) l

/-- Python tuple comparison `(n₁, s₁) <= (n₂, s₂)` used by the sort keys
of the repository: lexicographic on the pair. -/
def keyLe (x y : Nat × String) : Bool :=
  if x.1 < y.1 then true
  else if y.1 < x.1 then false
  else pyStrLe x.2 y.2

/-- Embedding of `is_fully_available` from `ResourceQueryTools` (identical in
`src/agent_tools.py` lines 92–96 and `src/src/agent_tools.py` lines
257–261):
`pattern = pattern.strip() if pattern else ""` (likewise `status`),
then an exact equality test against `"Generally available"` /
`"Available"`.  `none` models Python `None`; the `if`-guard uses Python
truthiness, under which `None` and `""` both fall through to `""`. -/
def is_fully_available (pattern status : Option String) : Bool :=
  let p := match pattern with
    | none => ""
    | some s => if truthyS s then pyStrip s else ""
  let st := match status with
    | none => ""
    | some s => if truthyS s then pyStrip s else ""
  p == "Generally available" && st == "Available"

namespace Base

/-- Embedding of `BaseResourceQueryTools.RANK_HIERARCHY`
(`src/src/query_tools/base.py` lines 7–17), in insertion order. -/
def RANK_HIERARCHY : List (String × Nat) :=
  [("Partner", 1), ("Associate Partner", 2), ("Consulting Director", 2),
   ("Managing Consultant", 3), ("Principal Consultant", 4),
   ("Senior Consultant", 5), ("Consultant", 6), ("Consultant Analyst", 7),
   ("Analyst", 8)]

/-- Lookup `self.RANK_HIERARCHY[x]` (total lookup used only on keys known to be
present, matching the sort key in `get_ranks_below`). -/
def rankLevel (r : String) : Nat :=
  (List.lookup r RANK_HIERARCHY).getD 0

/-- The `self.locations` list set in `BaseResourceQueryTools.__init__`. -/
def locations : List String :=
  ["London", "Manchester", "Bristol", "Belfast",
   "Copenhagen", "Stockholm", "Oslo"]

/-- The `self.standard_skills` set of `BaseResourceQueryTools.__init__`
(a Python `set` literal; the list keeps the source order, and no claim
depends on the unspecified set-iteration order). -/
def standard_skills : List String :=
  ["Frontend Developer", "Backend Developer", "AWS Engineer",
   "Full Stack Developer", "Cloud Engineer", "Architect",
   "Product Manager", "Agile Coach", "Business Analyst"]

/-- Embedding of `BaseResourceQueryTools.get_ranks_below`
(`src/src/query_tools/base.py` lines 36–45): alias `'mc'`, dictionary
lookup (`if not target_level` is the Python falsiness test, covering
both a missing key and a zero level), then the ranks with a strictly
greater level, stably sorted ascending by level. -/
def get_ranks_below (rank : String) : List String :=
  let rank := if pyLower rank = "mc" then "Managing Consultant" else rank
  match List.lookup rank RANK_HIERARCHY with
  | none => []
  | some target_level =>
      if target_level = 0 then []
      else
        List.insertionSort (fun a b => rankLevel a ≤ rankLevel b)
          ((RANK_HIERARCHY.filter (fun p => target_level < p.2)).map (·.1))

/-- The structured query dictionary built by
`BaseResourceQueryTools.construct_query`; absent keys are `none`. -/
structure CQuery where
  weeks : Option (List Nat) := none
  ranks : Option (List String) := none
  rank : Option String := none
  location : Option String := none
  skills : Option (List String) := none
deriving DecidableEq, Repr

/-- The `"weeks"` stage of `construct_query`
(`src/src/query_tools/base.py` lines 53–72). -/
def parseWeeks (ql : String) : List Nat :=
  if strContains ql "week" then
    if strContains ql "next" then
      match pyWhiteSplit ((pySplitStr ql "next").getD 1 "") with
      | p :: _ =>
          if pyIsDigitStr p then List.range' 1 (pyParseNat p) else []
      | [] => []
    else if strContains ql "weeks" then
      (pyWhiteSplit ((pySplitStr ql "weeks").getD 1 "")).foldl
        (fun acc p => if pyIsDigitStr p then acc ++ [pyParseNat p] else acc) []
    else
      match pyWhiteSplit ((pySplitStr ql "week").getD 1 "") with
      | p :: _ => if pyIsDigitStr p then [pyParseNat p] else []
      | [] => []
  else []

/-- Python `rank.lower().replace(' ', '')` used in the dead `"below"/"above"`
branch of `construct_query`. -/
def lowerNoSpace (r : String) : String :=
  ⟨((pyLower r).data.filter (fun c => !(c == ' ')))⟩

/-- Embedding of `BaseResourceQueryTools.construct_query`
(`src/src/query_tools/base.py` lines 47–135) on a string argument.
Stages in source order: week extraction, the rank `if/elif` chain
(the final `"below" and "above"` branch is kept even though the earlier
`is_hierarchy_query` branch subsumes it), the location scan (later
matches overwrite earlier ones), and the skill scan (appending each
matching catalog skill). -/
def construct_query (query_str : String) : CQuery :=
  let ql := pyLower query_str
  let weeks := parseWeeks ql
  let weeksField : Option (List Nat) :=
    if weeks.isEmpty then none
    else some (List.insertionSort (fun a b => a ≤ b) weeks)
  let is_hierarchy_query :=
    strContains ql "below" || strContains ql "above" || strContains ql "under"
  let is_all_consultants := strContains ql "all consultants" && !is_hierarchy_query
  let is_consulting_resources := strContains ql "consulting resources"
  let (ranksField, rankField) : Option (List String) × Option String :=
    if is_all_consultants || is_consulting_resources then
      (some ["Principal Consultant", "Managing Consultant", "Senior Consultant",
             "Consultant", "Consultant Analyst"], none)
    else if is_hierarchy_query then
      if strContains ql "mc" || strContains ql "management consultant" then
        (some (get_ranks_below "Managing Consultant"), none)
      else
        match RANK_HIERARCHY.find? (fun p => strContains ql (pyLower p.1)) with
        | some p => (some (get_ranks_below p.1), none)
        | none => (none, none)
    else if strContains ql "senior consultant" then
      (none, some "Senior Consultant")
    else if strContains ql "consultant" &&
        !(strContains ql "principal" || strContains ql "managing" ||
          strContains ql "analyst") then
      (none, some "Consultant")
    else if strContains ql "below" && strContains ql "above" then
      let below_rank : Option String :=
        if strContains ql "mc" then some "Managing Consultant"
        else (RANK_HIERARCHY.find? (fun p =>
          strContains ((pySplitStr ql "below").getD 1 "") (lowerNoSpace p.1))).map (·.1)
      let above_rank : Option String :=
        (RANK_HIERARCHY.find? (fun p =>
          strContains ((pySplitStr ql "above").getD 1 "") (lowerNoSpace p.1))).map (·.1)
      match below_rank, above_rank with
      | some br, some ar =>
          let all_ranks :=
            List.insertionSort (fun a b => rankLevel a ≤ rankLevel b)
              (RANK_HIERARCHY.map (·.1))
          let start_idx := all_ranks.indexOf br
          let end_idx := all_ranks.indexOf ar
          (some ((all_ranks.take end_idx).drop (start_idx + 1)), none)
      | _, _ => (none, none)
    else (none, none)
  let locField : Option String :=
    locations.foldl
      (fun acc loc => if strContains ql (pyLower loc) then some loc else acc) none
  let skillsList : List String :=
    standard_skills.foldl
      (fun acc sk => if strContains ql (pyLower sk) then acc ++ [sk] else acc) []
  let skillsField : Option (List String) :=
    if skillsList.isEmpty then none else some skillsList
  { weeks := weeksField, ranks := ranksField, rank := rankField,
    location := locField, skills := skillsField }

end Base

namespace SrcAgent

/-- The keys of the raw dictionary handed to
`ResourceQueryTools.validate_query` (`src/src/agent_tools.py` lines
174–207).  Only these five keys are ever read; absent keys are `none`.
The `isinstance` guards of the source are reflected by the field types. -/
structure RawQuery where
  location : Option String := none
  locations : Option (List String) := none
  rank : Option String := none
  ranks : Option (List String) := none
  skills : Option (List String) := none
deriving DecidableEq, Repr

/-- The validated dictionary built by `validate_query`; note the
`locations` input key is emitted as `location_in`. -/
structure ValidQuery where
  location : Option String := none
  location_in : Option (List String) := none
  rank : Option String := none
  ranks : Option (List String) := none
  skills : Option (List String) := none
deriving DecidableEq, Repr

/-- Python `r in self.RANK_HIERARCHY` (key membership; the subclass inherits
`BaseResourceQueryTools.RANK_HIERARCHY`). -/
def rankMem (r : String) : Bool :=
  (List.lookup r Base.RANK_HIERARCHY).isSome

/-- Embedding of `ResourceQueryTools.validate_query` (`src/src/agent_tools.py` lines
174–207): each field is kept only when its value(s) survive the check
against the catalogs (`self.locations`, `self.RANK_HIERARCHY`,
`self.standard_skills`); a list field whose every value is invalid is
omitted. -/
def validate_query (q : RawQuery) : ValidQuery :=
  let vloc : Option String :=
    match q.location with
    | some l => if Base.locations.contains l then some l else none
    | none => none
  let vlocin : Option (List String) :=
    match q.locations with
    | some ls =>
        let v := ls.filter (fun l => Base.locations.contains l)
        if v.isEmpty then none else some v
    | none => none
  let vrank : Option String :=
    match q.rank with
    | some r => if rankMem r then some r else none
    | none => none
  let vranks : Option (List String) :=
    match q.ranks with
    | some rs =>
        let v := rs.filter rankMem
        if v.isEmpty then none else some v
    | none => none
  let vskills : Option (List String) :=
    match q.skills with
    | some ss =>
        let v := ss.filter (fun sk => Base.standard_skills.contains sk)
        if v.isEmpty then none else some v
    | none => none
  { location := vloc, location_in := vlocin, rank := vrank,
    ranks := vranks, skills := vskills }

/-- The `{}` result of `construct_query` on a failure path. -/
def emptyValidQuery : ValidQuery := {}

/-- The JSON-region extraction of `ResourceQueryTools.construct_query`
(`src/src/agent_tools.py` lines 155–163): if the stripped response does
not start with `'{'`, take the slice from the first `'{'` to one past
the last `'}'`; `none` models the `return {}` path
(`start = find('{')` is `-1`, or `end = rfind('}') + 1` is not greater
than `start`). -/
def extractJsonRegion (response : String) : Option String :=
  if strStartsWith response "\x7b" then some response
  else
    match pyFindChar response '{' with
    | none => none
    | some start =>
        match pyRFindChar response '}' with
        | none => none
        | some rp =>
            if start < rp + 1 then some (pySlice response start (rp + 1))
            else none

/-- Embedding of `ResourceQueryTools.construct_query` (`src/src/agent_tools.py`
lines 63–172) from the completion's response text onward.  The external
completion call and `json.loads` are the two collaborators: the former
is abstracted into the `responseText` argument (its `.text`, to which
the source applies `.strip()`), the latter into `parse`, where `none`
models `json.JSONDecodeError` (caught and turned into `{}`; the outer
`except` likewise yields `{}`).  A successful parse is validated with
`validate_query`. -/
def construct_query (parse : String → Option RawQuery)
    (responseText : String) : ValidQuery :=
  let response := pyStrip responseText
  match extractJsonRegion response with
  | none => emptyValidQuery
  | some region =>
      match parse region with
      | none => emptyValidQuery
      | some q => validate_query q

end SrcAgent

namespace Fb

/-- An `employees` collection document (`src/firebase_utils.py`; the
fields written by `create_sample_data` and read by the query tools). -/
structure EmployeeDoc where
  employee_number : String
  name : String
  location : String
  rank : String
  skills : List String
deriving DecidableEq, Repr

/-- A week document in the `weeks` sub-collection. -/
structure WeekRec where
  status : String
  notes : String
  week_number : Nat
deriving DecidableEq, Repr

/-- A value of the per-week map assembled by `fetch_availability_batch`:
either the week document found in the store, or the
`{'status': 'Unknown'}` placeholder. -/
inductive WeekCell where
  | found (r : WeekRec)
  | unknownOnly
deriving DecidableEq, Repr

/-- The `status` entry of a week cell (`'Unknown'` for the
placeholder). -/
def WeekCell.status : WeekCell → String
  | .found r => r.status
  | .unknownOnly => "Unknown"

/-- An `availability` document together with its `weeks` sub-collection
(keyed `week_1` … `week_8`), as returned by `fetch_availability`. -/
structure AvailData where
  employee_number : String
  pattern_description : String
  weeks : List (String × WeekRec)
deriving DecidableEq, Repr

/-- The document store: the `employees` collection and the
`availability` collection keyed by employee number (the document id). -/
structure DB where
  employees : List EmployeeDoc
  availability : List (String × AvailData)

/-- Embedding of `fetch_availability` (`src/firebase_utils.py` lines 227–252):
document lookup by employee number; `none` models both the
`not avail_doc.exists` path and the exception path. -/
def fetch_availability (db : DB) (employee_number : String) : Option AvailData :=
  List.lookup employee_number db.availability

/-- The key string `week_{w}`. -/
def weekKey (w : Nat) : String :=
  "week_" ++ toString w

/-- The value stored for `week_key` by the batch fetch: the week
document if `week_key in avail_data['weeks']`, else
`{'status': 'Unknown'}` (`src/firebase_utils.py` lines 273–279). -/
def cellByKey (avail : AvailData) (k : String) : WeekCell :=
  match List.lookup k avail.weeks with
  | some r => WeekCell.found r
  | none => WeekCell.unknownOnly

/-- One entry of the `fetch_availability_batch` result map. -/
structure BatchEntry where
  employee_data : EmployeeDoc
  pattern_description : String
  weeks : List (String × WeekCell)
deriving DecidableEq, Repr

/-- The per-employee body of the `fetch_availability_batch` loop
(`src/firebase_utils.py` lines 258–287): find the employee document
(`continue` → `none`), fetch availability (`continue` → `none`), then
build the `weeks_data` dict over the requested weeks. -/
def batchEntryFor (db : DB) (weeks : List Nat) (emp_num : String) :
    Option BatchEntry :=
  match db.employees.find? (fun e => e.employee_number == emp_num) with
  | none => none
  | some emp_data =>
      match fetch_availability db emp_num with
      | none => none
      | some avail_data =>
          let weeks_data := weeks.foldl
            (fun wd w => dictInsert (weekKey w) (cellByKey avail_data (weekKey w)) wd)
            []
          some { employee_data := emp_data,
                 pattern_description := avail_data.pattern_description,
                 weeks := weeks_data }

/-- Embedding of `fetch_availability_batch` (`src/firebase_utils.py` lines 254–292):
the `results` dict accumulated over `employee_numbers` in order,
skipping numbers with no employee document or no availability
document. -/
def fetch_availability_batch (db : DB) (employee_numbers : List String)
    (weeks : List Nat) : List (String × BatchEntry) :=
  employee_numbers.foldl
    (fun results emp_num =>
      match batchEntryFor db weeks emp_num with
      | none => results
      | some e => dictInsert emp_num e results)
    []

/-- The week record held by the store for employee `emp` and week `w`
(used to state the `"Unknown"`-substitution property). -/
def storeWeek (db : DB) (emp : String) (w : Nat) : Option WeekRec :=
  (fetch_availability db emp).bind (fun a => List.lookup (weekKey w) a.weeks)

end Fb

namespace Legacy

/-- The `RANK_HIERARCHY` of the earlier snapshot (`src/agent_tools.py`
lines 41–51): here Principal Consultant is level 3 and Managing
Consultant level 4, with lower integer = more senior throughout. -/
def RANK_HIERARCHY : List (String × Nat) :=
  [("Partner", 1), ("Associate Partner", 2), ("Consulting Director", 2),
   ("Principal Consultant", 3), ("Managing Consultant", 4),
   ("Senior Consultant", 5), ("Consultant", 6), ("Consultant Analyst", 7),
   ("Analyst", 8)]

/-- Python `RANK_HIERARCHY.get(r, 0)`. -/
def rankLevel (r : String) : Nat :=
  (List.lookup r RANK_HIERARCHY).getD 0

/-- Embedding of `ResourceQueryTools.is_rank_below` (`src/agent_tools.py` lines
84–86). -/
def is_rank_below (rank1 rank2 : String) : Bool :=
  rankLevel rank1 < rankLevel rank2

/-- Embedding of `ResourceQueryTools.is_rank_above` (`src/agent_tools.py` lines
88–90). -/
def is_rank_above (rank1 rank2 : String) : Bool :=
  rankLevel rank2 < rankLevel rank1

/-- The `self.standard_skills` set of the earlier snapshot (`src/agent_tools.py`
lines 59–70; a Python `set` literal, kept here in source order —
membership is all the code uses apart from the `sorted` call in the
prompt). -/
def standard_skills : List String :=
  ["Frontend Developer", "Backend Developer", "Full Stack Developer",
   "AWS Engineer", "GCP Engineer", "Cloud Engineer", "Architect",
   "Product Manager", "Agile Coach", "Business Analyst"]

/-- The prompt assembled by `translate_skill_query`
(`src/agent_tools.py` lines 100–117): an f-string interpolating the
query and `', '.join(sorted(self.standard_skills))`. -/
def skillPrompt (skill_query : String) : String :=
  "Given this request: \"" ++ skill_query ++ "\"\n" ++
  "        Map it to ONE of our standard skills:\n" ++
  "        " ++ pyJoin ", " (pySortedStr standard_skills) ++ "\n" ++
  "        \n" ++
  "        Rules:\n" ++
  "        1. Return EXACTLY ONE skill from the list above\n" ++
  "        2. Match variations like:\n" ++
  "           - \"frontend engineer\" → \"Frontend Developer\"\n" ++
  "           - \"UI developer\" → \"Frontend Developer\"\n" ++
  "           - \"AWS resource\" → \"AWS Engineer\"\n" ++
  "        3. Return the EXACT skill name with correct capitalization\n" ++
  "        4. If no match, return \"None\"\n" ++
  "        \n" ++
  "        Examples:\n" ++
  "        Input: \"frontend engineer\" → Output: Frontend Developer\n" ++
  "        Input: \"AWS resource\" → Output: AWS Engineer\n" ++
  "        Input: \"random skill\" → Output: None\n" ++
  "        "

/-- Embedding of `ResourceQueryTools.translate_skill_query` (`src/agent_tools.py`
lines 98–124).  `llm` is the external completion collaborator
(`Settings.llm.complete(prompt).text`); the code strips its response and
accepts it only if it is a member of `standard_skills` — there is no
catalog lookup before the delegation. -/
def translate_skill_query (llm : String → String) (skill_query : String) :
    Option String :=
  let normalized := pyStrip (llm (skillPrompt skill_query))
  if standard_skills.contains normalized then some normalized else none

/-- Embedding of `ResourceQueryTools.query_availability` (`src/agent_tools.py` lines
261–299) for a list argument (the `dict` and bare-string re-dispatch
branches are for other call shapes and unreachable from
`query_available_people`): default the weeks to 1..8 when the argument
is `None` or empty, fetch the batch, and format the markdown table. -/
def query_availability (db : Fb.DB) (employee_numbers : List String)
    (weeks? : Option (List Nat)) : String :=
  let weeks := match weeks? with
    | none => List.range' 1 8
    | some ws => if ws.isEmpty then List.range' 1 8 else ws
  let results := Fb.fetch_availability_batch db employee_numbers weeks
  let week_headers := weeks.map (fun w => "Week " ++ toString w)
  let table := "| Name | Pattern | " ++ pyJoin " | " week_headers ++ " |\n"
  let table := table ++ "|------|---------|" ++
    pyJoin "|" (List.replicate week_headers.length "---") ++ "|"
  results.foldl
    (fun tbl entry =>
      let name := entry.2.employee_data.name
      let pattern := entry.2.pattern_description
      let week_status := weeks.map (fun w =>
        match List.lookup (Fb.weekKey w) entry.2.weeks with
        | some cell => cell.status
        | none => "Unknown")
      tbl ++ "\n| " ++ name ++ " | " ++ pattern ++ " | " ++
        pyJoin " | " week_status ++ " |")
    table

/-- The per-employee record kept in `emp_details` by
`query_available_people`. -/
structure EmpDetail where
  name : String
  location : String
  rank : String
  skills : String
deriving DecidableEq, Repr

/-- The `emp_numbers` and `emp_details` accumulated by the extraction loop
of `query_available_people`. -/
structure ExtractResult where
  empNumbers : List String
  empDetails : List (String × EmpDetail)
deriving DecidableEq, Repr

/-- Indexing `parts[i]` with Python's `IndexError` for non-negative `i`. -/
def pyGet (l : List String) (i : Nat) : Except String String :=
  match l.get? i with
  | some v => Except.ok v
  | none => Except.error "list index out of range"

/-- Indexing `parts[-2]` with Python's `IndexError`. -/
def pyGetNeg2 (l : List String) : Except String String :=
  if h : 2 ≤ l.length then Except.ok (l.get ⟨l.length - 2, by omega⟩)
  else Except.error "list index out of range"

/-- One iteration of the extraction loop of `query_available_people`
(`src/agent_tools.py` lines 335–353): lines containing both `'|'` and
`'EMP'` are split on `'|'` and stripped; `parts[-2]` is the employee id
and `parts[3]` the rank; a truthy `rank_below`/`rank_above` argument
filters by the rank comparisons; survivors are added to `emp_details`
(dict) and appended to `emp_numbers`. -/
def extractStep (rank_below rank_above : Option String)
    (acc : Except String ExtractResult) (line : String) :
    Except String ExtractResult :=
  match acc with
  | Except.error e => Except.error e
  | Except.ok res =>
      if strContains line "|" && strContains line "EMP" then
        let parts := (pySplitChar line '|').map pyStrip
        match pyGetNeg2 parts with
        | Except.error e => Except.error e
        | Except.ok emp_id =>
            match pyGet parts 3 with
            | Except.error e => Except.error e
            | Except.ok emp_rank =>
                if truthyOS rank_below &&
                    !(is_rank_below emp_rank (rank_below.getD "")) then
                  Except.ok res
                else if truthyOS rank_above &&
                    !(is_rank_above emp_rank (rank_above.getD "")) then
                  Except.ok res
                else
                  match pyGet parts 1, pyGet parts 2, pyGet parts 4 with
                  | Except.ok name, Except.ok loc, Except.ok skl =>
                      Except.ok
                        { empNumbers := res.empNumbers ++ [emp_id],
                          empDetails := dictInsert emp_id
                            { name := name, location := loc,
                              rank := emp_rank, skills := skl }
                            res.empDetails }
                  | Except.error e, _, _ => Except.error e
                  | _, Except.error e, _ => Except.error e
                  | _, _, Except.error e => Except.error e
      else Except.ok res

/-- The extraction loop of `query_available_people` over the lines of
the `query_people` table; an `IndexError` aborts the whole function via
the outer `except`. -/
def extractEmps (people_results : String)
    (rank_below rank_above : Option String) : Except String ExtractResult :=
  (pySplitChar people_results '\n').foldl
    (extractStep rank_below rank_above) (Except.ok ⟨[], []⟩)

/-- The `fully_available` and `availability_details` accumulated by the
availability-scanning loop of `query_available_people`. -/
structure ScanResult where
  fully_available : List EmpDetail
  availability_details : List (String × (String × String))
deriving DecidableEq, Repr

/-- The availability-scanning loop of `query_available_people`
(`src/agent_tools.py` lines 365–385): for every `'|'` line of the
availability table with at least 4 parts, `parts[1]` is the name,
`parts[2]` the pattern and `parts[3]` the status — the status of the
FIRST requested week's column only; the first `emp_details` entry with
that name gets its availability recorded and, when
`is_fully_available(pattern, status)` holds, its detail appended to
`fully_available`. -/
def scanAvail (availability : String)
    (emp_details : List (String × EmpDetail)) : ScanResult :=
  (pySplitChar availability '\n').foldl
    (fun res line =>
      if strContains line "|" then
        let parts := (pySplitChar line '|').map pyStrip
        if parts.length < 4 then res
        else
          let name := parts.getD 1 ""
          let pattern := parts.getD 2 ""
          let status := parts.getD 3 ""
          match emp_details.find? (fun p => p.2.name == name) with
          | none => res
          | some pr =>
              let res' : ScanResult :=
                { res with availability_details :=
                    dictInsert pr.1 (pattern, status) res.availability_details }
              if is_fully_available (some pattern) (some status) then
                { res' with fully_available := res'.fully_available ++ [pr.2] }
              else res'
      else res)
    ⟨[], []⟩

/-- The descending-key comparison behind
`sorted(fully_available, key=lambda x: (RANK_HIERARCHY.get(x['rank'], 0),
x['name']), reverse=True)`: `a` may precede `b` iff `b`'s key is at most
`a`'s key in the lexicographic order on (level, name). -/
def rosterRel (a b : EmpDetail) : Prop :=
  keyLe (rankLevel b.rank, b.name) (rankLevel a.rank, a.name) = true

instance : DecidableRel rosterRel := fun a b => by
  unfold rosterRel
  infer_instance

/-- The final `FULLY AVAILABLE PEOPLE` roster of
`query_available_people` (`src/agent_tools.py` lines 406–408):
Python's stable `sorted(..., reverse=True)` on the key
`(RANK_HIERARCHY.get(rank, 0), name)`, modelled by the stable insertion
sort with the reversed comparison. -/
def fullyAvailableRoster (fully_available : List EmpDetail) : List EmpDetail :=
  List.insertionSort rosterRel fully_available

/-- The response assembly of `query_available_people`
(`src/agent_tools.py` lines 387–413). -/
def buildResponse (people_results : String)
    (emp_details : List (String × EmpDetail))
    (availability_details : List (String × (String × String)))
    (fully_available : List EmpDetail) : String :=
  let matchedLines := (pySplitChar people_results '\n').filter
    (fun line => emp_details.any (fun p => strContains line p.2.name))
  let response := "Found matching employees:\n" ++ pyJoin "\n" matchedLines
  let response := response ++ "\n\nAvailability Status:\n"
  let response := emp_details.foldl
    (fun resp p =>
      let avail := List.lookup p.1 availability_details
      let pattern := (avail.map Prod.fst).getD "Unknown"
      let status := (avail.map Prod.snd).getD "Unknown"
      let is_available := is_fully_available (some pattern) (some status)
      resp ++ "\n" ++ (if is_available then "✓" else "❌") ++ " " ++
        p.2.name ++ " (" ++ p.2.rank ++ "):\n" ++
        "  - Pattern: " ++ pattern ++ "\n" ++
        "  - Status: " ++ status ++ "\n")
    response
  let response := response ++ "\n"
  if !fully_available.isEmpty then
    (fullyAvailableRoster fully_available).foldl
      (fun resp emp =>
        resp ++ "✓ " ++ emp.name ++ " (" ++ emp.rank ++ ", " ++
          emp.location ++ ")\n")
      (response ++ "FULLY AVAILABLE PEOPLE:\n")
  else response ++ "❌ No fully available people found.\n"

/-- Embedding of `ResourceQueryTools.query_available_people` (`src/agent_tools.py`
lines 304–416).  External collaborators are abstracted as arguments:

* `tyErrMsg` — the `str(e)` of the `TypeError` raised by
  `self.query_people(**filters)` whenever `filters` is non-empty,
  because `query_people` (line 143) accepts only `query_str`; CPython's
  keyword-binding failure is caught by the function's own
  `except Exception`.  (Its exact wording is interpreter-dependent, so
  it is a parameter.)
* `people_no_kwargs` — the string `self.query_people()` returns in the
  only non-raising case, the empty-filters call.
* `availFn` — `self.query_availability` (a function of the extracted
  employee numbers and the `weeks` argument); the body consults it only
  after the rank-filter emptiness check.

Everything else follows the source line by line: the
`"No employees found"` substring check, the extraction loop, the
`"No employees found matching the rank criteria."` early return, the
availability scan and the response assembly. -/
def query_available_people
    (tyErrMsg : String)
    (people_no_kwargs : String)
    (availFn : List String → Option (List Nat) → String)
    (skills : Option (List String)) (location : Option String)
    (rank : Option String)
    (rank_below : Option String) (rank_above : Option String)
    (employee_numbers : Option (List String))
    (weeks : Option (List Nat)) : String :=
  let filtersPresent := truthyOL employee_numbers || truthyOL skills ||
    truthyOS location || truthyOS rank
  if filtersPresent then
    "Error querying available people: " ++ tyErrMsg
  else
    let people_results := people_no_kwargs
    if strContains people_results "No employees found" then people_results
    else
      match extractEmps people_results rank_below rank_above with
      | Except.error e => "Error querying available people: " ++ e
      | Except.ok res =>
          if res.empNumbers.isEmpty then
            "No employees found matching the rank criteria."
          else
            let availability := availFn res.empNumbers weeks
            let scan := scanAvail availability res.empDetails
            buildResponse people_results res.empDetails
              scan.availability_details scan.fully_available

end Legacy

namespace Fixtures

/-- A one-employee store for exercising `query_available_people`:
John Doe is `"Generally available"`, week 3 is `"Partially Available"`,
every other week `"Available"` (the scenario of §8 of the spec). -/
def dbJohn : Fb.DB :=
  { employees :=
      [{ employee_number := "EMP001", name := "John Doe",
         location := "London", rank := "Consultant",
         skills := ["Frontend Developer"] }],
    availability :=
      [("EMP001",
        { employee_number := "EMP001",
          pattern_description := "Generally available",
          weeks :=
            [("week_1", ⟨"Available", "Week 1 - Available", 1⟩),
             ("week_2", ⟨"Available", "Week 2 - Available", 2⟩),
             ("week_3", ⟨"Partially Available", "Week 3 - Partially Available", 3⟩),
             ("week_4", ⟨"Available", "Week 4 - Available", 4⟩),
             ("week_5", ⟨"Available", "Week 5 - Available", 5⟩),
             ("week_6", ⟨"Available", "Week 6 - Available", 6⟩),
             ("week_7", ⟨"Available", "Week 7 - Available", 7⟩),
             ("week_8", ⟨"Available", "Week 8 - Available", 8⟩)] })] }

/-- The `query_people()` markdown table listing John Doe (the shape
produced by `src/agent_tools.py` lines 249–254). -/
def peopleTableJohn : String :=
  "| Name | Location | Rank | Skills | Employee ID |\n" ++
  "|------|----------|------|---------|-------------|\n" ++
  "| John Doe | London | Consultant | Frontend Developer | EMP001 |\n"

/-- A run of `query_available_people` with no people filters, the John Doe
store, and requested weeks `[1, 3]`. -/
def runJohnWeeks13 : String :=
  Legacy.query_available_people "unexpected keyword argument"
    peopleTableJohn (Legacy.query_availability dbJohn)
    none none none none none none (some [1, 3])

/-- A store with a single availability week on record, for the batch
fetch: week 1 exists, week 3 does not, and `EMP999` matches nothing. -/
def dbJane : Fb.DB :=
  { employees :=
      [{ employee_number := "EMP001", name := "Jane Roe",
         location := "Bristol", rank := "Analyst",
         skills := ["Business Analyst"] }],
    availability :=
      [("EMP001",
        { employee_number := "EMP001",
          pattern_description := "Generally available",
          weeks := [("week_1", ⟨"Available", "Week 1 - Available", 1⟩)] })] }

/-- The batch entry `fetch_availability_batch` builds for `EMP001` of
`dbJane` over weeks `[1, 3]`. -/
def entryJane : Fb.BatchEntry :=
  { employee_data :=
      { employee_number := "EMP001", name := "Jane Roe",
        location := "Bristol", rank := "Analyst",
        skills := ["Business Analyst"] },
    pattern_description := "Generally available",
    weeks := [("week_1", Fb.WeekCell.found ⟨"Available", "Week 1 - Available", 1⟩),
              ("week_3", Fb.WeekCell.unknownOnly)] }

/-- Fully-available details used to exhibit the roster order: a Partner
and an Analyst. -/
def alicePartner : Legacy.EmpDetail :=
  { name := "Alice", location := "London", rank := "Partner",
    skills := "Architect" }

/-- See `alicePartner`. -/
def bobAnalyst : Legacy.EmpDetail :=
  { name := "Bob", location := "Manchester", rank := "Analyst",
    skills := "Architect" }

/-- Two fully-available Consultants (equal level), for the tie order. -/
def aliceConsultant : Legacy.EmpDetail :=
  { name := "Alice", location := "London", rank := "Consultant",
    skills := "Architect" }

/-- See `aliceConsultant`. -/
def bobConsultant : Legacy.EmpDetail :=
  { name := "Bob", location := "Manchester", rank := "Consultant",
    skills := "Architect" }

end Fixtures


/-- An empty-string guard is invisible under `strip`: the Python idiom
`s.strip() if s else ""` equals `s.strip()`. -/
theorem strip_truthy_guard (s : String) :
    (if truthyS s then pyStrip s else "") = pyStrip s := by
  by_cases h : truthyS s
  · simp [h]
  · have hs : s = "" := by
      cases s with
      | mk d =>
        have hd : d = [] := by
          simpa [truthyS, List.isEmpty_iff] using h
        subst hd
        rfl
    subst hs
    decide

/-- If `pat` is a prefix of `pre`, it is a prefix of `pre ++ rest`. -/
theorem listStartsWith_append (pat pre rest : List Char)
    (h : listStartsWith pat pre = true) :
    listStartsWith pat (pre ++ rest) = true := by
  induction pat generalizing pre with
  | nil => rfl
  | cons a as ih =>
      cases pre with
      | nil => simp [listStartsWith] at h
      | cons b bs =>
          simp only [listStartsWith, Bool.and_eq_true] at h ⊢
          exact ⟨h.1, ih bs h.2⟩

/-- Totality of `charListLe`. -/
theorem charListLe_total (a b : List Char) :
    charListLe a b = true ∨ charListLe b a = true := by
  induction a generalizing b with
  | nil => exact Or.inl rfl
  | cons x xs ih =>
      cases b with
      | nil => exact Or.inr rfl
      | cons y ys =>
          rcases lt_trichotomy x y with h | h | h
          · exact Or.inl (by simp [charListLe, h])
          · subst h
            rcases ih ys with h2 | h2
            · exact Or.inl (by simp [charListLe, h2])
            · exact Or.inr (by simp [charListLe, h2])
          · exact Or.inr (by simp [charListLe, h])

/-- Transitivity of `charListLe`. -/
theorem charListLe_trans (a b c : List Char)
    (hab : charListLe a b = true) (hbc : charListLe b c = true) :
    charListLe a c = true := by
  induction a generalizing b c with
  | nil => rfl
  | cons x xs ih =>
      cases b with
      | nil => simp [charListLe] at hab
      | cons y ys =>
          cases c with
          | nil => simp [charListLe] at hbc
          | cons z zs =>
              rcases lt_trichotomy x y with hxy | hxy | hxy
              · rcases lt_trichotomy y z with hyz | hyz | hyz
                · simp [charListLe, lt_trans hxy hyz]
                · subst hyz; simp [charListLe, hxy]
                · simp [charListLe, hyz, not_lt.mpr (le_of_lt hyz)] at hbc
              · subst hxy
                rcases lt_trichotomy x z with hyz | hyz | hyz
                · simp [charListLe, hyz]
                · subst hyz
                  simp only [charListLe, lt_irrefl, if_false] at hab hbc ⊢
                  exact ih ys zs hab hbc
                · simp [charListLe, hyz, not_lt.mpr (le_of_lt hyz)] at hbc
              · simp [charListLe, hxy, not_lt.mpr (le_of_lt hxy)] at hab

/-- Unfolding `keyLe` into the lexicographic order on the pair. -/
theorem keyLe_iff (x y : Nat × String) :
    keyLe x y = true ↔
      (x.1 < y.1 ∨ (x.1 = y.1 ∧ charListLe x.2.data y.2.data = true)) := by
  rcases lt_trichotomy x.1 y.1 with h | h | h
  · simp [keyLe, h]
  · simp [keyLe, h, lt_irrefl, pyStrLe]
  · simp [keyLe, h, not_lt.mpr (le_of_lt h), Nat.lt_asymm h,
      (ne_of_gt h : x.1 ≠ y.1)]

/-- Totality of `keyLe`. -/
theorem keyLe_total (x y : Nat × String) :
    keyLe x y = true ∨ keyLe y x = true := by
  rw [keyLe_iff, keyLe_iff]
  rcases lt_trichotomy x.1 y.1 with h | h | h
  · exact Or.inl (Or.inl h)
  · rcases charListLe_total x.2.data y.2.data with h2 | h2
    · exact Or.inl (Or.inr ⟨h, h2⟩)
    · exact Or.inr (Or.inr ⟨h.symm, h2⟩)
  · exact Or.inr (Or.inl h)

/-- Transitivity of `keyLe`. -/
theorem keyLe_trans (x y z : Nat × String)
    (hxy : keyLe x y = true) (hyz : keyLe y z = true) :
    keyLe x z = true := by
  rw [keyLe_iff] at hxy hyz ⊢
  rcases hxy with h1 | ⟨h1, h1s⟩ <;> rcases hyz with h2 | ⟨h2, h2s⟩
  · exact Or.inl (lt_trans h1 h2)
  · exact Or.inl (by omega)
  · exact Or.inl (by omega)
  · exact Or.inr ⟨by omega, charListLe_trans _ _ _ h1s h2s⟩

/-- Behaviour of `List.lookup` after a Python-style dict assignment. -/
theorem lookup_dictInsert {α : Type} (k k' : String) (v : α)
    (l : List (String × α)) :
    List.lookup k (dictInsert k' v l) =
      if k = k' then some v else List.lookup k l := by
  induction l with
  | nil =>
      by_cases h : k = k'
      · simp [dictInsert, List.lookup_cons, h]
      · simp [dictInsert, List.lookup_cons, beq_false_of_ne h, h]
  | cons hd tl ih =>
      obtain ⟨hk, hv⟩ := hd
      by_cases h1 : k' = hk
      · subst h1
        by_cases h2 : k = k'
        · simp [dictInsert, List.lookup_cons, h2]
        · simp [dictInsert, List.lookup_cons, beq_false_of_ne h2, h2]
      · by_cases h2 : k = hk
        · subst h2
          have h3 : ¬ k = k' := fun he => h1 (he ▸ rfl)
          simp [dictInsert, List.lookup_cons, h1, h3, ih,
            beq_false_of_ne h3]
        · simp [dictInsert, List.lookup_cons, h1, beq_false_of_ne h2, ih]

/-- Looking up a week key in the `weeks_data` dict built by
`batchEntryFor`: every processed week is present, with the value
determined by the store. -/
theorem lookup_weeksData (avail : Fb.AvailData) (ws : List Nat)
    (acc : List (String × Fb.WeekCell)) (k : String) :
    List.lookup k
      (ws.foldl
        (fun wd w => dictInsert (Fb.weekKey w) (Fb.cellByKey avail (Fb.weekKey w)) wd)
        acc) =
      if k ∈ ws.map Fb.weekKey then some (Fb.cellByKey avail k)
      else List.lookup k acc := by
  induction ws generalizing acc with
  | nil => simp
  | cons w ws ih =>
      simp only [List.foldl_cons, List.map_cons, List.mem_cons]
      rw [ih]
      by_cases hk : k ∈ ws.map Fb.weekKey
      · simp [hk]
      · by_cases he : k = Fb.weekKey w
        · subst he
          simp [hk, lookup_dictInsert]
        · simp [hk, he, lookup_dictInsert]

/-- Looking up an employee in the `results` dict accumulated by
`fetch_availability_batch`. -/
theorem lookup_batch_foldl (db : Fb.DB) (ws : List Nat) (nums : List String)
    (acc : List (String × Fb.BatchEntry)) (emp : String) :
    List.lookup emp
      (nums.foldl
        (fun results emp_num =>
          match Fb.batchEntryFor db ws emp_num with
          | none => results
          | some e => dictInsert emp_num e results)
        acc) =
      if emp ∈ nums ∧ (Fb.batchEntryFor db ws emp).isSome
      then Fb.batchEntryFor db ws emp
      else List.lookup emp acc := by
  induction nums generalizing acc with
  | nil => simp
  | cons n ns ih =>
      simp only [List.foldl_cons]
      rw [ih]
      by_cases hmem : emp ∈ ns ∧ (Fb.batchEntryFor db ws emp).isSome
      · simp [hmem, List.mem_cons, hmem.1, hmem.2]
      · by_cases he : emp = n
        · subst he
          cases hb : Fb.batchEntryFor db ws emp with
          | none => simp [hb]
          | some e =>
              have h1 : emp ∈ emp :: ns ∧ (Fb.batchEntryFor db ws emp).isSome := by
                simp [hb]
              simp [hmem, h1, hb, lookup_dictInsert]
        · have h2 : ¬ (emp ∈ n :: ns ∧ (Fb.batchEntryFor db ws emp).isSome = true) := by
            intro hc
            rcases hc with ⟨hc1, hc2⟩
            rcases List.mem_cons.mp hc1 with h | h
            · exact he h
            · exact hmem ⟨h, hc2⟩
          rw [if_neg hmem, if_neg h2]
          cases hb : Fb.batchEntryFor db ws n with
          | none => rfl
          | some e => exact (lookup_dictInsert emp n e acc).trans (if_neg he)

/-- The result map of `fetch_availability_batch`, characterized per
employee number. -/
theorem lookup_fetch_availability_batch (db : Fb.DB) (nums : List String)
    (ws : List Nat) (emp : String) :
    List.lookup emp (Fb.fetch_availability_batch db nums ws) =
      if emp ∈ nums then Fb.batchEntryFor db ws emp else none := by
  unfold Fb.fetch_availability_batch
  rw [lookup_batch_foldl]
  by_cases hmem : emp ∈ nums
  · cases hb : Fb.batchEntryFor db ws emp with
    | none => simp [hmem, hb]
    | some e => simp [hmem, hb]
  · simp [hmem]

/-- C1: for the input `"all consultants below MC"`, the structured
filter built by `BaseResourceQueryTools.construct_query` carries exactly
`ranks = ["Principal Consultant", "Senior Consultant", "Consultant",
"Consultant Analyst", "Analyst"]` (and nothing else), and
`get_ranks_below("Managing Consultant")` returns exactly that list,
ordered from the most senior of the remaining ranks to the least
senior. -/
theorem construct_query_below_MC_exact :
    Base.construct_query "all consultants below MC" =
      { ranks := some ["Principal Consultant", "Senior Consultant",
                       "Consultant", "Consultant Analyst", "Analyst"] } ∧
    Base.get_ranks_below "Managing Consultant" =
      ["Principal Consultant", "Senior Consultant", "Consultant",
       "Consultant Analyst", "Analyst"] := by
  exact ⟨by decide, by decide⟩

set_option maxRecDepth 20000 in
/-- C2 (code evaluation at the failing input): an employee whose
pattern is `"Generally available"`, whose week 3 status is
`"Partially Available"` and whose other weeks are `"Available"`,
queried through `query_available_people` for weeks `[1, 3]`, IS listed
under `FULLY AVAILABLE PEOPLE` — the scan reads only `parts[3]`, the
status column of the first requested week — even though
`is_fully_available` is false for the week 3 status, so the
conjunction-across-requested-weeks demanded by the claim fails. -/
theorem john_listed_fully_available_weeks_1_3 :
    strContains Fixtures.runJohnWeeks13 "FULLY AVAILABLE PEOPLE:" = true ∧
    strContains Fixtures.runJohnWeeks13 "✓ John Doe (Consultant, London)" = true ∧
    strContains
      (Legacy.query_availability Fixtures.dbJohn ["EMP001"] (some [1, 3]))
      "Partially Available" = true ∧
    is_fully_available (some "Generally available")
      (some "Partially Available") = false := by
  refine ⟨by decide, by decide, by decide, by decide⟩

/-- C3: `is_fully_available(pattern, status)` is true exactly when the
stripped pattern is `"Generally available"` and the stripped status is
`"Available"`; in particular `("Generally available", "")` and `None`
inputs yield false. -/
theorem is_fully_available_characterization :
    (∀ p s : Option String,
      is_fully_available p s = true ↔
        (pyStrip (p.getD "") = "Generally available" ∧
         pyStrip (s.getD "") = "Available")) ∧
    is_fully_available (some "Generally available") (some "") = false ∧
    (∀ s : Option String, is_fully_available none s = false) ∧
    (∀ p : Option String, is_fully_available p none = false) := by
  have hnl : ∀ s : Option String, is_fully_available none s = false := by
    intro s
    cases s <;> rfl
  have hnr : ∀ p : Option String, is_fully_available p none = false := by
    intro p
    cases p with
    | none => rfl
    | some a => simp [is_fully_available]
  have key : ∀ p s : Option String,
      is_fully_available p s = true ↔
        (pyStrip (p.getD "") = "Generally available" ∧
         pyStrip (s.getD "") = "Available") := by
    intro p s
    cases p with
    | none =>
        rw [hnl s]
        constructor
        · intro h
          simp at h
        · rintro ⟨h1, _⟩
          exact absurd h1 (by decide)
    | some a =>
        cases s with
        | none =>
            rw [hnr (some a)]
            constructor
            · intro h
              simp at h
            · rintro ⟨_, h2⟩
              exact absurd h2 (by decide)
        | some b =>
            simp [is_fully_available, strip_truthy_guard, Option.getD]
  exact ⟨key, by decide, hnl, hnr⟩

/-- The `rank` field of `validate_query`, unfolded. -/
theorem validate_query_rank_eq (q : SrcAgent.RawQuery) :
    (SrcAgent.validate_query q).rank =
      match q.rank with
      | some r => if SrcAgent.rankMem r then some r else none
      | none => none := rfl

/-- The `ranks` field of `validate_query`, unfolded. -/
theorem validate_query_ranks_eq (q : SrcAgent.RawQuery) :
    (SrcAgent.validate_query q).ranks =
      match q.ranks with
      | some rs =>
          if (rs.filter SrcAgent.rankMem).isEmpty then none
          else some (rs.filter SrcAgent.rankMem)
      | none => none := rfl

/-- The `location` field of `validate_query`, unfolded. -/
theorem validate_query_location_eq (q : SrcAgent.RawQuery) :
    (SrcAgent.validate_query q).location =
      match q.location with
      | some l => if Base.locations.contains l then some l else none
      | none => none := rfl

/-- The `location_in` field of `validate_query`, unfolded. -/
theorem validate_query_location_in_eq (q : SrcAgent.RawQuery) :
    (SrcAgent.validate_query q).location_in =
      match q.locations with
      | some ls =>
          if (ls.filter (fun l => Base.locations.contains l)).isEmpty then none
          else some (ls.filter (fun l => Base.locations.contains l))
      | none => none := rfl

/-- The `skills` field of `validate_query`, unfolded. -/
theorem validate_query_skills_eq (q : SrcAgent.RawQuery) :
    (SrcAgent.validate_query q).skills =
      match q.skills with
      | some ss =>
          if (ss.filter (fun sk => Base.standard_skills.contains sk)).isEmpty
          then none
          else some (ss.filter (fun sk => Base.standard_skills.contains sk))
      | none => none := rfl

/-- A filtered list is empty exactly when no element passes. -/
theorem filter_isEmpty_iff {α : Type} (p : α → Bool) (l : List α) :
    (l.filter p).isEmpty = true ↔ ∀ a ∈ l, p a = false := by
  rw [List.isEmpty_iff, List.filter_eq_nil_iff]
  constructor
  · intro h a ha
    simpa using h a ha
  · intro h a ha
    simp [h a ha]

/-- C4 counterexample: `validate_query` does not enforce the
`rank`/`ranks` mutual exclusion — on the input dict
`{'rank': 'Partner', 'ranks': ['Consultant']}` both keys survive into
the returned filter. -/
theorem validate_query_keeps_rank_and_ranks :
    (SrcAgent.validate_query
        { rank := some "Partner", ranks := some ["Consultant"] }).rank
      = some "Partner" ∧
    (SrcAgent.validate_query
        { rank := some "Partner", ranks := some ["Consultant"] }).ranks
      = some ["Consultant"] := by
  exact ⟨by decide, by decide⟩

/-- C4 (amended): every value kept by `validate_query` under
`rank`/`ranks` belongs to the rank catalog, every value kept under
`location`/`location_in` to the location catalog, every value kept
under `skills` to the skill catalog; a field all of whose values are
invalid is omitted from the result (as is a kept list field that would
be empty); but `rank` and `ranks` may both appear. -/
theorem validate_query_catalogs_and_drops (q : SrcAgent.RawQuery) :
    (∀ r, (SrcAgent.validate_query q).rank = some r →
        SrcAgent.rankMem r = true)
  ∧ (∀ rs, (SrcAgent.validate_query q).ranks = some rs →
        rs ≠ [] ∧ ∀ r ∈ rs, SrcAgent.rankMem r = true)
  ∧ (∀ l, (SrcAgent.validate_query q).location = some l →
        Base.locations.contains l = true)
  ∧ (∀ ls, (SrcAgent.validate_query q).location_in = some ls →
        ls ≠ [] ∧ ∀ l ∈ ls, Base.locations.contains l = true)
  ∧ (∀ ss, (SrcAgent.validate_query q).skills = some ss →
        ss ≠ [] ∧ ∀ sk ∈ ss, Base.standard_skills.contains sk = true)
  ∧ (∀ r, q.rank = some r → SrcAgent.rankMem r = false →
        (SrcAgent.validate_query q).rank = none)
  ∧ (∀ rs, q.ranks = some rs → (∀ r ∈ rs, SrcAgent.rankMem r = false) →
        (SrcAgent.validate_query q).ranks = none)
  ∧ (∀ l, q.location = some l → Base.locations.contains l = false →
        (SrcAgent.validate_query q).location = none)
  ∧ (∀ ls, q.locations = some ls →
        (∀ l ∈ ls, Base.locations.contains l = false) →
        (SrcAgent.validate_query q).location_in = none)
  ∧ (∀ ss, q.skills = some ss →
        (∀ sk ∈ ss, Base.standard_skills.contains sk = false) →
        (SrcAgent.validate_query q).skills = none) := by
  refine ⟨?_, ?_, ?_, ?_, ?_, ?_, ?_, ?_, ?_, ?_⟩
  · intro r h
    rw [validate_query_rank_eq] at h
    cases hq : q.rank with
    | none => rw [hq] at h; exact absurd h (by simp)
    | some r' =>
        rw [hq] at h
        replace h :
            (if SrcAgent.rankMem r' = true then some r' else none) = some r := h
        by_cases hm : SrcAgent.rankMem r' = true
        · rw [if_pos hm] at h
          injection h with h2
          subst h2
          exact hm
        · rw [if_neg hm] at h
          exact absurd h (by simp)
  · intro rs h
    rw [validate_query_ranks_eq] at h
    cases hq : q.ranks with
    | none => rw [hq] at h; exact absurd h (by simp)
    | some rs' =>
        rw [hq] at h
        replace h :
            (if (rs'.filter SrcAgent.rankMem).isEmpty = true then none
             else some (rs'.filter SrcAgent.rankMem)) = some rs := h
        by_cases he : (rs'.filter SrcAgent.rankMem).isEmpty = true
        · rw [if_pos he] at h
          exact absurd h (by simp)
        · rw [if_neg he] at h
          injection h with h2
          subst h2
          refine ⟨by simpa [List.isEmpty_iff] using he, ?_⟩
          intro r hr
          exact List.of_mem_filter hr
  · intro l h
    rw [validate_query_location_eq] at h
    cases hq : q.location with
    | none => rw [hq] at h; exact absurd h (by simp)
    | some l' =>
        rw [hq] at h
        replace h :
            (if Base.locations.contains l' = true then some l' else none)
              = some l := h
        by_cases hm : Base.locations.contains l' = true
        · rw [if_pos hm] at h
          injection h with h2
          subst h2
          exact hm
        · rw [if_neg hm] at h
          exact absurd h (by simp)
  · intro ls h
    rw [validate_query_location_in_eq] at h
    cases hq : q.locations with
    | none => rw [hq] at h; exact absurd h (by simp)
    | some ls' =>
        rw [hq] at h
        replace h :
            (if (ls'.filter (fun l => Base.locations.contains l)).isEmpty = true
             then none
             else some (ls'.filter (fun l => Base.locations.contains l)))
              = some ls := h
        by_cases he :
            (ls'.filter (fun l => Base.locations.contains l)).isEmpty = true
        · rw [if_pos he] at h
          exact absurd h (by simp)
        · rw [if_neg he] at h
          injection h with h2
          subst h2
          refine ⟨by simpa [List.isEmpty_iff] using he, ?_⟩
          intro l hl
          exact List.of_mem_filter hl
  · intro ss h
    rw [validate_query_skills_eq] at h
    cases hq : q.skills with
    | none => rw [hq] at h; exact absurd h (by simp)
    | some ss' =>
        rw [hq] at h
        replace h :
            (if (ss'.filter (fun sk => Base.standard_skills.contains sk)).isEmpty
                = true
             then none
             else some (ss'.filter (fun sk => Base.standard_skills.contains sk)))
              = some ss := h
        by_cases he :
            (ss'.filter (fun sk => Base.standard_skills.contains sk)).isEmpty
              = true
        · rw [if_pos he] at h
          exact absurd h (by simp)
        · rw [if_neg he] at h
          injection h with h2
          subst h2
          refine ⟨by simpa [List.isEmpty_iff] using he, ?_⟩
          intro sk hs
          exact List.of_mem_filter hs
  · intro r hq hm
    rw [validate_query_rank_eq, hq]
    show (if SrcAgent.rankMem r = true then some r else none) = none
    rw [if_neg (by simp [hm])]
  · intro rs hq hall
    rw [validate_query_ranks_eq, hq]
    show (if (rs.filter SrcAgent.rankMem).isEmpty = true then none
          else some (rs.filter SrcAgent.rankMem)) = none
    rw [if_pos ((filter_isEmpty_iff _ _).mpr hall)]
  · intro l hq hm
    rw [validate_query_location_eq, hq]
    show (if Base.locations.contains l = true then some l else none) = none
    rw [if_neg (by rw [hm]; simp)]
  · intro ls hq hall
    rw [validate_query_location_in_eq, hq]
    show (if (ls.filter (fun l => Base.locations.contains l)).isEmpty = true
          then none
          else some (ls.filter (fun l => Base.locations.contains l))) = none
    rw [if_pos ((filter_isEmpty_iff _ _).mpr hall)]
  · intro ss hq hall
    rw [validate_query_skills_eq, hq]
    show (if (ss.filter (fun sk => Base.standard_skills.contains sk)).isEmpty
            = true
          then none
          else some (ss.filter (fun sk => Base.standard_skills.contains sk)))
            = none
    rw [if_pos ((filter_isEmpty_iff _ _).mpr hall)]

/-- Witness for `validate_query_catalogs_and_drops` at a concrete
all-invalid input. -/
theorem validate_query_catalogs_and_drops_witness :
    (SrcAgent.validate_query
        { rank := some "Jester", ranks := some ["Garbage"],
          location := some "Atlantis", locations := some ["Nowhere"],
          skills := some ["Juggling"] }).rank = none ∧
    (SrcAgent.validate_query
        { rank := some "Jester", ranks := some ["Garbage"],
          location := some "Atlantis", locations := some ["Nowhere"],
          skills := some ["Juggling"] }).ranks = none ∧
    (SrcAgent.validate_query
        { rank := some "Jester", ranks := some ["Garbage"],
          location := some "Atlantis", locations := some ["Nowhere"],
          skills := some ["Juggling"] }).location = none ∧
    (SrcAgent.validate_query
        { rank := some "Jester", ranks := some ["Garbage"],
          location := some "Atlantis", locations := some ["Nowhere"],
          skills := some ["Juggling"] }).location_in = none ∧
    (SrcAgent.validate_query
        { rank := some "Jester", ranks := some ["Garbage"],
          location := some "Atlantis", locations := some ["Nowhere"],
          skills := some ["Juggling"] }).skills = none := by
  obtain ⟨-, -, -, -, -, h6, h7, h8, h9, h10⟩ :=
    validate_query_catalogs_and_drops
      { rank := some "Jester", ranks := some ["Garbage"],
        location := some "Atlantis", locations := some ["Nowhere"],
        skills := some ["Juggling"] }
  refine ⟨h6 "Jester" rfl (by decide), h7 ["Garbage"] rfl (by decide),
    h8 "Atlantis" rfl (by decide), h9 ["Nowhere"] rfl (by decide),
    h10 ["Juggling"] rfl (by decide)⟩

/-- C5: in `query_available_people`, when the rank_below/rank_above
post-filters leave zero employees, the function returns exactly
`"No employees found matching the rank criteria."`, and the result does
not depend on the availability collaborator `availFn` at all — i.e. the
availability fetch is never consulted (the statement is universally
quantified over `availFn`). -/
theorem empty_rank_filter_skips_availability
    (tyErr people : String)
    (availFn : List String → Option (List Nat) → String)
    (rb ra : Option String) (weeks : Option (List Nat))
    (res : Legacy.ExtractResult)
    (h1 : strContains people "No employees found" = false)
    (h2 : Legacy.extractEmps people rb ra = Except.ok res)
    (h3 : res.empNumbers = []) :
    Legacy.query_available_people tyErr people availFn
        none none none rb ra none weeks
      = "No employees found matching the rank criteria." := by
  unfold Legacy.query_available_people
  simp only [truthyOL, truthyOS, Bool.or_self, Bool.or_false, Bool.false_or,
    Bool.if_false_left, h1, h2, h3]
  simp [h1, h2, h3]

/-- Witness for `empty_rank_filter_skips_availability`: John Doe's
table with `rank_below = "Partner"` (nothing ranks below Partner), and
an availability collaborator that would be visible if it were called. -/
theorem empty_rank_filter_skips_availability_witness :
    Legacy.query_available_people "unexpected keyword argument"
        Fixtures.peopleTableJohn (fun _ _ => "AVAILABILITY WAS CALLED")
        none none none (some "Partner") none none none
      = "No employees found matching the rank criteria." := by
  exact empty_rank_filter_skips_availability _ _ _ _ _ _ ⟨[], []⟩
    (by decide) rfl rfl

/-- C6: in the `src/agent_tools.py` snapshot, any call to
`query_available_people` that supplies a non-empty `skills`,
`location`, `rank` or `employee_numbers` argument makes
`self.query_people(**filters)` raise `TypeError` (because
`query_people` accepts only `query_str`); the `except` clause turns
that into `"Error querying available people: " ++ tyErr`, so the
result always starts with `"Error querying available people:"` and is
never a people/availability report. -/
theorem nonempty_filters_always_error
    (tyErr people : String)
    (availFn : List String → Option (List Nat) → String)
    (skills : Option (List String)) (location rank rb ra : Option String)
    (employee_numbers : Option (List String)) (weeks : Option (List Nat))
    (h : (truthyOL employee_numbers || truthyOL skills ||
          truthyOS location || truthyOS rank) = true) :
    Legacy.query_available_people tyErr people availFn
        skills location rank rb ra employee_numbers weeks
      = "Error querying available people: " ++ tyErr ∧
    strStartsWith
      (Legacy.query_available_people tyErr people availFn
        skills location rank rb ra employee_numbers weeks)
      "Error querying available people:" = true := by
  have heq :
      Legacy.query_available_people tyErr people availFn
          skills location rank rb ra employee_numbers weeks
        = "Error querying available people: " ++ tyErr := by
    unfold Legacy.query_available_people
    rw [if_pos h]
  refine ⟨heq, ?_⟩
  rw [heq]
  show listStartsWith "Error querying available people:".data
    ("Error querying available people: ".data ++ tyErr.data) = true
  exact listStartsWith_append _ _ _ (by decide)

/-- Witness for `nonempty_filters_always_error`: a concrete call with a
non-empty `skills` filter. -/
theorem nonempty_filters_always_error_witness :
    Legacy.query_available_people
        "query_people() got an unexpected keyword argument 'skills'"
        Fixtures.peopleTableJohn (fun _ _ => "")
        (some ["Frontend Developer"]) none none none none none none
      = "Error querying available people: " ++
        "query_people() got an unexpected keyword argument 'skills'" ∧
    strStartsWith
      (Legacy.query_available_people
        "query_people() got an unexpected keyword argument 'skills'"
        Fixtures.peopleTableJohn (fun _ _ => "")
        (some ["Frontend Developer"]) none none none none none none)
      "Error querying available people:" = true := by
  exact nonempty_filters_always_error _ _ _ _ _ _ _ _ _ _ (by decide)

/-- C7 counterexample: the `FULLY AVAILABLE PEOPLE` roster built by
`query_available_people` puts the Analyst (level 8) before the Partner
(level 1) — most junior first, not most senior first — and, for equal
levels, `"Bob"` before `"Alice"` — name descending, not ascending. -/
theorem roster_junior_first_and_name_descending :
    Legacy.fullyAvailableRoster [Fixtures.alicePartner, Fixtures.bobAnalyst]
      = [Fixtures.bobAnalyst, Fixtures.alicePartner] ∧
    Legacy.fullyAvailableRoster [Fixtures.aliceConsultant, Fixtures.bobConsultant]
      = [Fixtures.bobConsultant, Fixtures.aliceConsultant] := by
  exact ⟨by decide, by decide⟩

/-- C7 (amended): the roster is a permutation of the fully-available
list, sorted DESCENDING in the key `(hierarchy level, name)` — since a
lower level integer means more senior, that is seniority ascending
(most junior first) and, within equal levels, name descending. -/
theorem roster_sorted_descending_key (l : List Legacy.EmpDetail) :
    List.Sorted Legacy.rosterRel (Legacy.fullyAvailableRoster l) ∧
    (Legacy.fullyAvailableRoster l).Perm l := by
  constructor
  · haveI htot : IsTotal Legacy.EmpDetail Legacy.rosterRel := by
      constructor
      intro a b
      unfold Legacy.rosterRel
      exact keyLe_total (Legacy.rankLevel b.rank, b.name)
        (Legacy.rankLevel a.rank, a.name)
    haveI htr : IsTrans Legacy.EmpDetail Legacy.rosterRel := by
      constructor
      intro a b c hab hbc
      unfold Legacy.rosterRel at hab hbc ⊢
      exact keyLe_trans _ _ _ hbc hab
    exact List.sorted_insertionSort _ _
  · exact List.perm_insertionSort _ _

/-- C8 counterexample: `translate_skill_query` performs no catalog
lookup before delegating to the completion call, so the identity
round-trip fails for the canonical skill `"Architect"` whenever the
completion does not echo it — here it answers `"None"` (an output its
own prompt invites), and the function returns `None` rather than
`"Architect"`. -/
theorem translate_skill_query_not_identity :
    Legacy.translate_skill_query (fun _ => "None") "Architect" = none ∧
    Legacy.standard_skills.contains "Architect" = true := by
  exact ⟨by decide, by decide⟩

/-- C8 (amended): the round-trip holds only conditionally — if the
completion's stripped response to the prompt for `x` is `x` itself and
`x` is a catalog member, then `translate_skill_query` returns `x`
unchanged.  (No case-insensitive catalog match happens before the
delegation; the unconditional identity claimed from the spec is
refuted by `translate_skill_query_not_identity`.) -/
theorem translate_skill_query_echo (llm : String → String) (x : String)
    (h1 : pyStrip (llm (Legacy.skillPrompt x)) = x)
    (h2 : Legacy.standard_skills.contains x = true) :
    Legacy.translate_skill_query llm x = some x := by
  unfold Legacy.translate_skill_query
  rw [h1, if_pos h2]

/-- Witness for `translate_skill_query_echo`: a completion that echoes
`"Architect"`. -/
theorem translate_skill_query_echo_witness :
    Legacy.translate_skill_query (fun _ => "Architect") "Architect"
      = some "Architect" := by
  exact translate_skill_query_echo (fun _ => "Architect") "Architect"
    (by decide) (by decide)

/-- C9: in the map returned by `fetch_availability_batch`, every
employee present has an entry for every requested week — equal to the
store's week record when one exists, and to the `'Unknown'`-status
placeholder when none does — and an employee number with no employee
document or no availability document is omitted from the map rather
than raising. -/
theorem fetch_availability_batch_spec (db : Fb.DB) (nums : List String)
    (ws : List Nat) :
    (∀ emp entry,
      List.lookup emp (Fb.fetch_availability_batch db nums ws) = some entry →
      ∀ w ∈ ws, ∃ cell : Fb.WeekCell,
        List.lookup (Fb.weekKey w) entry.weeks = some cell ∧
        (Fb.storeWeek db emp w = none → cell.status = "Unknown") ∧
        (∀ r, Fb.storeWeek db emp w = some r → cell = Fb.WeekCell.found r))
  ∧ (∀ emp,
      (db.employees.find? (fun e => e.employee_number == emp) = none ∨
       Fb.fetch_availability db emp = none) →
      List.lookup emp (Fb.fetch_availability_batch db nums ws) = none) := by
  constructor
  · intro emp entry hlook w hw
    rw [lookup_fetch_availability_batch] at hlook
    by_cases hmem : emp ∈ nums
    · rw [if_pos hmem] at hlook
      unfold Fb.batchEntryFor at hlook
      cases hemp : db.employees.find? (fun e => e.employee_number == emp) with
      | none => rw [hemp] at hlook; exact absurd hlook (by simp)
      | some emp_data =>
          rw [hemp] at hlook
          cases hav : Fb.fetch_availability db emp with
          | none => rw [hav] at hlook; exact absurd hlook (by simp)
          | some avail =>
              rw [hav] at hlook
              replace hlook :
                  ({ employee_data := emp_data,
                     pattern_description := avail.pattern_description,
                     weeks := ws.foldl
                       (fun wd w => dictInsert (Fb.weekKey w)
                         (Fb.cellByKey avail (Fb.weekKey w)) wd) [] }
                    : Fb.BatchEntry) = entry := Option.some.inj hlook
              subst hlook
              refine ⟨Fb.cellByKey avail (Fb.weekKey w), ?_, ?_, ?_⟩
              · show List.lookup (Fb.weekKey w)
                  (ws.foldl (fun wd w => dictInsert (Fb.weekKey w)
                    (Fb.cellByKey avail (Fb.weekKey w)) wd) []) = _
                rw [lookup_weeksData]
                rw [if_pos (List.mem_map_of_mem Fb.weekKey hw)]
              · intro hnone
                have : List.lookup (Fb.weekKey w) avail.weeks = none := by
                  unfold Fb.storeWeek at hnone
                  rw [hav] at hnone
                  simpa using hnone
                unfold Fb.cellByKey
                rw [this]
                rfl
              · intro r hr
                have : List.lookup (Fb.weekKey w) avail.weeks = some r := by
                  unfold Fb.storeWeek at hr
                  rw [hav] at hr
                  simpa using hr
                unfold Fb.cellByKey
                rw [this]
    · rw [if_neg hmem] at hlook
      exact absurd hlook (by simp)
  · intro emp hmiss
    rw [lookup_fetch_availability_batch]
    by_cases hmem : emp ∈ nums
    · rw [if_pos hmem]
      unfold Fb.batchEntryFor
      rcases hmiss with h | h
      · rw [h]
      · rw [h]
        cases db.employees.find? (fun e => e.employee_number == emp) <;> rfl
    · rw [if_neg hmem]

/-- Witness for `fetch_availability_batch_spec`: the `dbJane` store,
employee numbers `["EMP001", "EMP999"]` and weeks `[1, 3]` — week 3 has
no record and resolves to the `'Unknown'` placeholder, and `EMP999`
(no documents at all) is omitted. -/
theorem fetch_availability_batch_spec_witness :
    (∃ cell : Fb.WeekCell,
      List.lookup (Fb.weekKey 3) Fixtures.entryJane.weeks = some cell ∧
      (Fb.storeWeek Fixtures.dbJane "EMP001" 3 = none →
        cell.status = "Unknown") ∧
      (∀ r, Fb.storeWeek Fixtures.dbJane "EMP001" 3 = some r →
        cell = Fb.WeekCell.found r)) ∧
    List.lookup "EMP999"
      (Fb.fetch_availability_batch Fixtures.dbJane ["EMP001", "EMP999"] [1, 3])
      = none := by
  have h := fetch_availability_batch_spec Fixtures.dbJane
    ["EMP001", "EMP999"] [1, 3]
  refine ⟨h.1 "EMP001" Fixtures.entryJane (by decide) 3 (by decide),
    h.2 "EMP999" (Or.inl (by decide))⟩

/-- C10: `construct_query` of `src/src/agent_tools.py` returns the
empty filter `{}` — rather than raising — whenever the completion's
response yields no `{…}` region, or the extracted region fails JSON
parsing. -/
theorem construct_query_unparseable_gives_empty
    (parse : String → Option SrcAgent.RawQuery) (responseText : String)
    (h : SrcAgent.extractJsonRegion (pyStrip responseText) = none ∨
         ∃ region,
           SrcAgent.extractJsonRegion (pyStrip responseText) = some region ∧
           parse region = none) :
    SrcAgent.construct_query parse responseText = SrcAgent.emptyValidQuery := by
  unfold SrcAgent.construct_query
  show (match SrcAgent.extractJsonRegion (pyStrip responseText) with
        | none => SrcAgent.emptyValidQuery
        | some region =>
          match parse region with
          | none => SrcAgent.emptyValidQuery
          | some q => SrcAgent.validate_query q) = SrcAgent.emptyValidQuery
  rcases h with h | ⟨region, h1, h2⟩
  · rw [h]
  · rw [h1]
    show (match parse region with
          | none => SrcAgent.emptyValidQuery
          | some q => SrcAgent.validate_query q) = SrcAgent.emptyValidQuery
    rw [h2]

/-- Witness for `construct_query_unparseable_gives_empty`: a prose
response with no braces, and a parser that fails on everything. -/
theorem construct_query_unparseable_gives_empty_witness :
    SrcAgent.construct_query (fun _ => none)
        "I could not find a filter for that request."
      = SrcAgent.emptyValidQuery := by
  exact construct_query_unparseable_gives_empty _ _ (Or.inl (by decide))
